import Mathlib

/-!
# Verification of the `weather-cli` core

A shallow embedding, in Lean 4, of the core logic of the `weather-cli`
command-line weather client:

* `restful_get` (src/utils.rs): the generic HTTP-GET-and-decode routine;
* `ProviderRegistry` / `add_provider` (src/provider_registry.rs): the
  `BTreeMap`-backed registry of provider factories;
* `configure_provider` (src/main.rs): configuration collection, validation
  and persistence;
* `clear_providers` (src/main.rs): removal of stored provider sections;
* `OpenWeather.get_weather` (src/provider/openweather.rs) and
  `AccuWeather.get_weather` (src/provider/accuweather.rs): the per-vendor
  request pipelines.

Modelling conventions:

* Rust's `BTreeMap<String, V>` is modelled as a `List (String × V)` kept
  sorted strictly by key; the key order is `strLtB`, lexicographic
  comparison of the key's characters (Unicode scalar values).  On UTF-8
  strings this coincides with Rust's `Ord for str` (lexicographic byte
  order), since UTF-8 preserves the order of scalar values.
* Network I/O, the system clock, interactive input, the `toml` value
  grammar and JSON decoding (all external collaborators of the core) are
  passed in as explicit function arguments ("oracles"); the embedded
  functions additionally return the list of network requests they issued,
  making "performs no network call" provable.
* A Rust `panic!` is modelled by returning `none` from an `Option`-valued
  function: the function has no recoverable-error channel, `none` is
  process termination.
* Fallible Rust functions returning `anyhow::Result` are modelled with
  `Except E`, where `E` is an inductive datatype with one constructor per
  distinct error construction site (each constructor carries the data
  interpolated into the corresponding `anyhow!` message).
* `f32`/`f64` payloads are carried opaquely through a type parameter; the
  embedded code never branches on them except through explicitly passed
  comparison oracles.
-/

/-! ## Key order: Rust `Ord for str`

`lexLt` is lexicographic strict order on char lists; `strLtB s t` compares
two strings.  This is the order `BTreeMap<String, _>` sorts by.
-/

/-- Lexicographic strict comparison of char lists (by Unicode scalar value,
which on UTF-8 encoded strings agrees with byte order). -/
def lexLt : List Char → List Char → Bool
  | [], [] => false
  | [], _ :: _ => true
  | _ :: _, [] => false
  | a :: as, b :: bs => if a < b then true else if b < a then false else lexLt as bs

/-- Rust's `Ord for str`: lexicographic byte order of the UTF-8 encoding. -/
def strLtB (s t : String) : Bool := lexLt s.data t.data

theorem char_eq_of_not_lt {a b : Char} (h1 : ¬ a < b) (h2 : ¬ b < a) : a = b :=
  le_antisymm (le_of_not_lt h2) (le_of_not_lt h1)

theorem lexLt_cons (a b : Char) (as bs : List Char) :
    lexLt (a :: as) (b :: bs) =
      if a < b then true else if b < a then false else lexLt as bs := rfl

theorem lexLt_irrefl : ∀ l : List Char, lexLt l l = false
  | [] => rfl
  | a :: as => by rw [lexLt_cons, if_neg (lt_irrefl a), if_neg (lt_irrefl a)]
                  exact lexLt_irrefl as

theorem lexLt_asymm : ∀ {l m : List Char}, lexLt l m = true → lexLt m l = false
  | [], [], h => by simp [lexLt] at h
  | [], _ :: _, _ => rfl
  | _ :: _, [], h => by simp [lexLt] at h
  | a :: as, b :: bs, h => by
    rw [lexLt_cons] at h ⊢
    rcases lt_trichotomy a b with hab | hab | hab
    · rw [if_neg (lt_asymm hab), if_pos hab]
    · rw [if_neg (hab ▸ lt_irrefl a), if_neg (hab ▸ lt_irrefl a)] at h ⊢
      exact lexLt_asymm h
    · rw [if_neg (lt_asymm hab), if_pos hab] at h
      exact absurd h (by simp)

theorem lexLt_trans : ∀ {l m n : List Char},
    lexLt l m = true → lexLt m n = true → lexLt l n = true
  | [], [], _, h, _ => by simp [lexLt] at h
  | [], _ :: _, [], _, h => by simp [lexLt] at h
  | [], _ :: _, _ :: _, _, _ => rfl
  | _ :: _, [], _, h, _ => by simp [lexLt] at h
  | _ :: _, _ :: _, [], _, h => by simp [lexLt] at h
  | a :: as, b :: bs, c :: cs, h1, h2 => by
    rw [lexLt_cons] at h1 h2 ⊢
    rcases lt_trichotomy a b with hab | hab | hab
    · rcases lt_trichotomy b c with hbc | hbc | hbc
      · rw [if_pos (lt_trans hab hbc)]
      · rw [if_pos (hbc ▸ hab)]
      · rw [if_neg (lt_asymm hbc), if_pos hbc] at h2
        exact absurd h2 (by simp)
    · rcases lt_trichotomy b c with hbc | hbc | hbc
      · rw [if_pos (hab ▸ hbc)]
      · rw [if_neg (hab ▸ lt_irrefl a), if_neg (hab ▸ lt_irrefl a)] at h1
        rw [if_neg (hbc ▸ hab ▸ lt_irrefl a), if_neg (hbc ▸ hab ▸ lt_irrefl a)] at h2 ⊢
        exact lexLt_trans h1 h2
      · rw [if_neg (lt_asymm hbc), if_pos hbc] at h2
        exact absurd h2 (by simp)
    · rw [if_neg (lt_asymm hab), if_pos hab] at h1
      exact absurd h1 (by simp)

theorem lexLt_connex : ∀ {l m : List Char}, l ≠ m →
    lexLt l m = true ∨ lexLt m l = true
  | [], [], h => absurd rfl h
  | [], _ :: _, _ => Or.inl rfl
  | _ :: _, [], _ => Or.inr rfl
  | a :: as, b :: bs, h => by
    rw [lexLt_cons, lexLt_cons]
    rcases lt_trichotomy a b with hab | hab | hab
    · exact Or.inl (by rw [if_pos hab])
    · have hne : as ≠ bs := fun hc => h (by rw [hab, hc])
      rw [if_neg (hab ▸ lt_irrefl a), if_neg (hab ▸ lt_irrefl a),
        if_neg (hab ▸ lt_irrefl a), if_neg (hab ▸ lt_irrefl a)]
      exact lexLt_connex hne
    · exact Or.inr (by rw [if_pos hab])

theorem strLtB_irrefl (s : String) : strLtB s s = false := lexLt_irrefl s.data

theorem strLtB_asymm {s t : String} (h : strLtB s t = true) : strLtB t s = false :=
  lexLt_asymm h

theorem strLtB_trans {s t u : String} (h1 : strLtB s t = true) (h2 : strLtB t u = true) :
    strLtB s u = true := lexLt_trans h1 h2

theorem string_eq_of_data_eq {s t : String} (h : s.data = t.data) : s = t := by
  cases s
  exact congrArg String.mk h

theorem strLtB_connex {s t : String} (h : s ≠ t) :
    strLtB s t = true ∨ strLtB t s = true :=
  lexLt_connex (fun hc => h (string_eq_of_data_eq hc))

/-! ## `BTreeMap<String, V>` model

A `BTreeMap` is modelled as its ordered entry list; `bt_insert` keeps the
list sorted by `strLtB` and replaces an existing binding (the semantics of
`BTreeMap::insert`), `bt_remove` removes the binding of a key
(`BTreeMap::remove`), `bt_get` and `bt_contains` model `get`/`contains_key`,
and the entry list itself is the iteration order.
-/

/-- `BTreeMap::get` (as key lookup in the entry list). -/
def bt_get (k : String) : List (String × α) → Option α
  | [] => none
  | (k', v') :: rest => if k = k' then some v' else bt_get k rest

/-- `BTreeMap::contains_key`. -/
def bt_contains (k : String) (m : List (String × α)) : Bool :=
  (bt_get k m).isSome

/-- `BTreeMap::insert`: insert sorted by `strLtB`, replacing an existing
binding of the same key. -/
def bt_insert (k : String) (v : α) : List (String × α) → List (String × α)
  | [] => [(k, v)]
  | (k', v') :: rest =>
    if strLtB k k' then (k, v) :: (k', v') :: rest
    else if k = k' then (k, v) :: rest
    else (k', v') :: bt_insert k v rest

/-- `BTreeMap::remove` (result map only; the removed value is unused by the
embedded code). -/
def bt_remove (k : String) : List (String × α) → List (String × α)
  | [] => []
  | (k', v') :: rest => if k = k' then rest else (k', v') :: bt_remove k rest

/-- The strict key order on entries; a `BTreeMap`'s entry list is sorted by
it. -/
def keyLtP (p q : String × α) : Prop := strLtB p.1 q.1 = true

instance : IsAntisymm (String × α) keyLtP := by
  refine ⟨fun p q h1 h2 => ?_⟩
  have h2' : strLtB q.1 p.1 = true := h2
  rw [strLtB_asymm h1] at h2'
  exact absurd h2' (by simp)

theorem bt_get_eq_some_mem {k : String} {v : α} :
    ∀ {m : List (String × α)}, bt_get k m = some v → (k, v) ∈ m
  | (k', v') :: rest, h => by
    by_cases hk : k = k'
    · subst hk
      rw [bt_get, if_pos rfl, Option.some_inj] at h
      rw [← h]
      exact List.mem_cons_self _ _
    · rw [bt_get, if_neg hk] at h
      exact List.mem_cons_of_mem _ (bt_get_eq_some_mem h)

theorem bt_contains_iff {k : String} {m : List (String × α)} :
    bt_contains k m = true ↔ k ∈ m.map Prod.fst := by
  induction m with
  | nil => simp [bt_contains, bt_get]
  | cons p rest ih =>
    by_cases hk : k = p.1
    · subst hk
      simp [bt_contains, bt_get]
    · simpa [bt_contains, bt_get, hk] using ih

theorem bt_mem_insert {k : String} {v : α} :
    ∀ {m : List (String × α)} {x : String × α},
      x ∈ bt_insert k v m → x = (k, v) ∨ x ∈ m
  | [], x, h => by simpa [bt_insert] using h
  | (k', v') :: rest, x, h => by
    by_cases h1 : strLtB k k'
    · simpa [bt_insert, h1] using h
    · by_cases h2 : k = k'
      · subst h2
        rcases (by simpa [bt_insert, h1] using h : x = (k, v) ∨ x ∈ rest) with h3 | h3
        · exact Or.inl h3
        · exact Or.inr (List.mem_cons_of_mem _ h3)
      · rcases (by simpa [bt_insert, h1, h2] using h :
            x = (k', v') ∨ x ∈ bt_insert k v rest) with h3 | h3
        · exact Or.inr (h3 ▸ List.mem_cons_self _ _)
        · rcases bt_mem_insert h3 with h4 | h4
          · exact Or.inl h4
          · exact Or.inr (List.mem_cons_of_mem _ h4)

theorem bt_insert_sorted {k : String} {v : α} :
    ∀ {m : List (String × α)}, List.Sorted keyLtP m →
      List.Sorted keyLtP (bt_insert k v m)
  | [], _ => List.sorted_singleton _
  | (k', v') :: rest, h => by
    rw [List.sorted_cons] at h
    obtain ⟨hhead, htail⟩ := h
    by_cases h1 : strLtB k k'
    · rw [bt_insert, if_pos h1, List.sorted_cons]
      refine ⟨fun b hb => ?_, (List.sorted_cons).2 ⟨hhead, htail⟩⟩
      rcases List.mem_cons.1 hb with hb | hb
      · exact hb ▸ h1
      · exact strLtB_trans h1 (hhead b hb)
    · by_cases h2 : k = k'
      · subst h2
        rw [bt_insert, if_neg h1, if_pos rfl, List.sorted_cons]
        exact ⟨hhead, htail⟩
      · rw [bt_insert, if_neg h1, if_neg h2, List.sorted_cons]
        refine ⟨fun b hb => ?_, bt_insert_sorted htail⟩
        rcases bt_mem_insert hb with hb | hb
        · subst hb
          rcases strLtB_connex h2 with h3 | h3
          · exact absurd h3 (by simp [h1])
          · exact h3
        · exact hhead b hb

theorem bt_insert_perm {k : String} {v : α} :
    ∀ {m : List (String × α)}, k ∉ m.map Prod.fst →
      (bt_insert k v m).Perm ((k, v) :: m)
  | [], _ => List.Perm.refl _
  | (k', v') :: rest, hk => by
    rw [List.map_cons, List.mem_cons, not_or] at hk
    obtain ⟨hne, htail⟩ := hk
    by_cases h1 : strLtB k k'
    · rw [bt_insert, if_pos h1]
    · rw [bt_insert, if_neg h1, if_neg hne]
      exact ((bt_insert_perm htail).cons (k', v')).trans (List.Perm.swap _ _ _)

theorem bt_get_insert_self {k : String} {v : α} :
    ∀ m : List (String × α), bt_get k (bt_insert k v m) = some v
  | [] => by simp [bt_insert, bt_get]
  | (k', v') :: rest => by
    by_cases h1 : strLtB k k'
    · simp [bt_insert, h1, bt_get]
    · by_cases h2 : k = k'
      · subst h2
        simp [bt_insert, h1, bt_get]
      · simp [bt_insert, h1, h2, bt_get, bt_get_insert_self rest]

theorem bt_remove_keys_subset {k : String} :
    ∀ {m : List (String × α)}, (bt_remove k m).map Prod.fst ⊆ m.map Prod.fst
  | [] => by simp [bt_remove]
  | (k', v') :: rest => by
    by_cases h1 : k = k'
    · simp only [bt_remove, if_pos h1]
      exact fun a ha => by simpa using Or.inr ha
    · simp only [bt_remove, if_neg h1, List.map_cons]
      intro a ha
      rcases List.mem_cons.1 ha with ha | ha
      · simpa using Or.inl ha
      · simpa using Or.inr (bt_remove_keys_subset ha)

theorem bt_remove_nodup {k : String} :
    ∀ {m : List (String × α)}, (m.map Prod.fst).Nodup →
      ((bt_remove k m).map Prod.fst).Nodup
  | [], _ => by simp [bt_remove]
  | (k', v') :: rest, h => by
    rw [List.map_cons, List.nodup_cons] at h
    by_cases h1 : k = k'
    · simpa [bt_remove, h1] using h.2
    · rw [bt_remove, if_neg h1, List.map_cons, List.nodup_cons]
      exact ⟨fun hc => h.1 (bt_remove_keys_subset hc), bt_remove_nodup h.2⟩

theorem bt_not_mem_remove_self {k : String} :
    ∀ {m : List (String × α)}, (m.map Prod.fst).Nodup →
      k ∉ (bt_remove k m).map Prod.fst
  | [], _ => by simp [bt_remove]
  | (k', v') :: rest, h => by
    rw [List.map_cons, List.nodup_cons] at h
    by_cases h1 : k = k'
    · subst h1
      simpa [bt_remove] using h.1
    · rw [bt_remove, if_neg h1, List.map_cons]
      intro hc
      rcases List.mem_cons.1 hc with hc | hc
      · exact h1 hc
      · exact bt_not_mem_remove_self h.2 hc

theorem bt_remove_of_not_mem {k : String} :
    ∀ {m : List (String × α)}, k ∉ m.map Prod.fst → bt_remove k m = m
  | [], _ => rfl
  | (k', v') :: rest, h => by
    rw [List.map_cons, List.mem_cons, not_or] at h
    rw [bt_remove, if_neg h.1, bt_remove_of_not_mem h.2]

theorem bt_get_remove_self {k : String} :
    ∀ {m : List (String × α)}, (m.map Prod.fst).Nodup →
      bt_get k (bt_remove k m) = none := by
  intro m h
  cases hg : bt_get k (bt_remove k m) with
  | none => rfl
  | some v =>
    exact absurd (List.mem_map_of_mem Prod.fst (bt_get_eq_some_mem hg))
      (bt_not_mem_remove_self h)

theorem bt_get_of_not_mem {k : String} :
    ∀ {m : List (String × α)}, k ∉ m.map Prod.fst → bt_get k m = none := by
  intro m h
  cases hg : bt_get k m with
  | none => rfl
  | some v => exact absurd (List.mem_map_of_mem Prod.fst (bt_get_eq_some_mem hg)) h

/-! ## Data model

`TomlValue` models `toml::Value` (src/main.rs works on `toml::Table`, the
string-keyed map of `toml::Value`).  The `Float`, `Datetime` and `Array`
variants of `toml::Value` are omitted: no embedded code path constructs or
inspects them (the only value-discriminating match in the embedded code is
`clear_providers`'s `Value::String` check, for which every non-`string`
variant behaves alike).
-/

/-- `toml::Value` (the variants the embedded code can observe). -/
inductive TomlValue where
  | string (s : String)
  | integer (n : Int)
  | boolean (b : Bool)
  | table (t : List (String × TomlValue))

/-- `toml::Table`: a string-keyed `BTreeMap` of values, as its sorted entry
list. -/
abbrev TomlTable : Type := List (String × TomlValue)

/-- `Date` (src/date.rs, and `toml::value::Date` in src/main.rs): plain
year/month/day components. -/
structure Date where
  year : Nat
  month : Nat
  day : Nat
deriving DecidableEq

/-! ## `restful_get` (src/utils.rs lines 42-69)

The HTTP layer (`reqwest`) is modelled by an `HttpResponse` value handed to
the function; `R::from_str` / `E::from_str` are the two parse oracles.
`RestError` has one constructor per error construction site of
`restful_get`, carrying the data interpolated into the `anyhow!` message.
-/

/-- Outcome of `reqwest::get(url).await` followed by `response.text()`:
either transport failure, or a status code plus the body text
(`none` body models `response.text()` failing). -/
inductive HttpResponse where
  | failed
  | got (status : Nat) (body : Option String)

/-- The errors `restful_get` can return (besides a parsed vendor failure,
which it returns as `api`). -/
inductive RestError (E : Type) where
  | transport
  | noText
  | successShape
  | failureShape (httpStatus : Nat)
  | api (failure : E)

/-- `reqwest::StatusCode::is_success`: `200 <= code < 300`. -/
def status_is_success (status : Nat) : Bool :=
  decide (200 ≤ status) && decide (status < 300)

/-- `restful_get<R, E>(url)` (src/utils.rs): branch on transport failure,
read the body text, then decode it as `R` on a success status and as `E`
otherwise; a decoded `E` is returned as the `api` error. -/
def restful_get (response : HttpResponse)
    (parse_success : String → Option R) (parse_failure : String → Option E) :
    Except (RestError E) R :=
  match response with
  | .failed => .error .transport
  | .got status body =>
    let is_ok := status_is_success status
    let code := status
    match body with
    | none => .error .noText
    | some text =>
      if is_ok then
        match parse_success text with
        | some r => .ok r
        | none => .error .successShape
      else
        match parse_failure text with
        | some e => .error (.api e)
        | none => .error (.failureShape code)

/-! ## `ProviderRegistry` (src/provider_registry.rs)

The registry is a `BTreeMap<CowString, Box<dyn ProviderFactory>>`; the
factory type is kept abstract (`F`), mirroring the type erasure of
`Box<dyn ProviderFactory>`.  `add_provider` panics (modelled as `none`) on
a duplicate name, as `Selector::add_provider` (src/selector.rs) does
identically.
-/

/-- `ProviderRegistry` with factory type `F`, as its ordered entry list. -/
abbrev ProviderRegistry (F : Type) : Type := List (String × F)

/-- `ProviderRegistry::new`. -/
def ProviderRegistry.new (F : Type) : ProviderRegistry F := []

/-- `ProviderRegistry::add_provider` (src/provider_registry.rs lines 48-56):
on a vacant entry insert the factory, on an occupied entry `panic!`
(modelled as `none` — there is no recoverable-error channel). -/
def ProviderRegistry.add_provider (reg : ProviderRegistry F) (name : String)
    (factory : F) : Option (ProviderRegistry F) :=
  if bt_contains name reg then none else some (bt_insert name factory reg)

/-- A whole startup sequence of `add_provider` calls (as performed in
`main`), propagating the panic. -/
def ProviderRegistry.add_all (reg : ProviderRegistry F) :
    List (String × F) → Option (ProviderRegistry F)
  | [] => some reg
  | (name, factory) :: rest =>
    match reg.add_provider name factory with
    | none => none
    | some reg' => reg'.add_all rest

theorem add_all_spec {F : Type} :
    ∀ (l : List (String × F)) (reg : ProviderRegistry F),
      List.Sorted keyLtP reg →
      ((reg.map Prod.fst) ++ (l.map Prod.fst)).Nodup →
      ∃ r, reg.add_all l = some r ∧ List.Sorted keyLtP r ∧ r.Perm (reg ++ l)
  | [], reg, hs, _ => ⟨reg, rfl, hs, by simp⟩
  | (name, factory) :: rest, reg, hs, hnd => by
    have hmem : name ∉ reg.map Prod.fst := by
      intro hc
      rw [List.nodup_append] at hnd
      exact hnd.2.2 hc (by simp)
    have hcont : bt_contains name reg = false := by
      cases hc : bt_contains name reg with
      | false => rfl
      | true => exact absurd (bt_contains_iff.1 hc) hmem
    have hins : (bt_insert name factory reg).Perm ((name, factory) :: reg) :=
      bt_insert_perm hmem
    have hperm1 : ((bt_insert name factory reg).map Prod.fst ++
        rest.map Prod.fst).Perm (reg.map Prod.fst ++ name :: rest.map Prod.fst) := by
      refine List.Perm.trans (List.Perm.append_right _ (hins.map Prod.fst)) ?_
      exact List.perm_middle.symm
    have hnd2 : (((bt_insert name factory reg).map Prod.fst) ++
        (rest.map Prod.fst)).Nodup :=
      hperm1.symm.nodup (by simpa using hnd)
    obtain ⟨r, hr, hsr, hpr⟩ :=
      add_all_spec rest (bt_insert name factory reg) (bt_insert_sorted hs) hnd2
    refine ⟨r, ?_, hsr, ?_⟩
    · rw [ProviderRegistry.add_all, ProviderRegistry.add_provider, hcont]
      exact hr
    · refine hpr.trans ?_
      refine (List.Perm.append_right rest hins).trans ?_
      exact List.perm_middle.symm

/-! ## Marker type for concrete provider registrations

`ProviderFactoryT<T>` is a zero-sized phantom wrapper; for concrete
registry computations the factory slot only needs a tag identifying `T`.
-/

/-- The concrete provider types of the crate, as registry factory tags. -/
inductive ProviderTag where
  | openweather
  | weatherapi
  | accuweather
deriving DecidableEq

/-- C4: iterating the registry yields the `(name, factory)` entries in
lexicographic (UTF-8 byte) order of the names, independently of the
registration order, for pairwise distinct names; in particular registering
`weatherapi`, then `accuweather`, then `openweather` iterates as
`accuweather, openweather, weatherapi`. -/
theorem c4_registry_iteration_lex_order :
    (∀ (F : Type) (l1 l2 : List (String × F)),
      (l1.map Prod.fst).Nodup → l1.Perm l2 →
      (ProviderRegistry.new F).add_all l1 = (ProviderRegistry.new F).add_all l2
      ∧ ∀ r, (ProviderRegistry.new F).add_all l1 = some r → List.Sorted keyLtP r)
    ∧ ((ProviderRegistry.new ProviderTag).add_all
        [("weatherapi", ProviderTag.weatherapi),
         ("accuweather", ProviderTag.accuweather),
         ("openweather", ProviderTag.openweather)]).map (fun r => r.map Prod.fst)
      = some ["accuweather", "openweather", "weatherapi"] := by
  constructor
  · intro F l1 l2 hnd hperm
    obtain ⟨r1, hr1, hs1, hp1⟩ := add_all_spec l1 (ProviderRegistry.new F)
      List.sorted_nil (by simpa [ProviderRegistry.new] using hnd)
    obtain ⟨r2, hr2, hs2, hp2⟩ := add_all_spec l2 (ProviderRegistry.new F)
      List.sorted_nil (by simpa [ProviderRegistry.new] using (hperm.map Prod.fst).nodup hnd)
    have hr12 : r1 = r2 := by
      refine List.eq_of_perm_of_sorted ?_ hs1 hs2
      exact (hp1.trans (by simpa [ProviderRegistry.new] using hperm)).trans
        (by simpa [ProviderRegistry.new] using hp2.symm)
    refine ⟨by rw [hr1, hr2, hr12], fun r hr => ?_⟩
    rw [hr1, Option.some_inj] at hr
    exact hr ▸ hs1
  · rfl

theorem c4_registry_iteration_lex_order_witness :
    (ProviderRegistry.new Nat).add_all [("b", 0), ("a", 1)]
      = (ProviderRegistry.new Nat).add_all [("a", 1), ("b", 0)]
    ∧ List.Sorted keyLtP [("a", 1), ("b", 0)] :=
  have h := c4_registry_iteration_lex_order.1 Nat [("b", 0), ("a", 1)] [("a", 1), ("b", 0)]
    (by decide) (List.Perm.swap ("a", 1) ("b", 0) [])
  ⟨h.1, h.2 [("a", 1), ("b", 0)] rfl⟩

/-- C9: `add_provider` with an already-registered name panics (modelled as
`none`: process termination, never a recoverable error value); with a fresh
name it inserts the factory under that name. -/
theorem c9_add_provider_duplicate_panics {F : Type} (reg : ProviderRegistry F)
    (name : String) (factory : F) :
    (name ∈ reg.map Prod.fst → reg.add_provider name factory = none)
    ∧ (name ∉ reg.map Prod.fst →
        reg.add_provider name factory = some (bt_insert name factory reg)
        ∧ bt_get name (bt_insert name factory reg) = some factory) := by
  constructor
  · intro h
    have hc : bt_contains name reg = true := bt_contains_iff.2 h
    simp [ProviderRegistry.add_provider, hc]
  · intro h
    have hc : bt_contains name reg = false := by
      cases hb : bt_contains name reg with
      | false => rfl
      | true => exact absurd (bt_contains_iff.1 hb) h
    constructor
    · simp [ProviderRegistry.add_provider, hc]
    · exact bt_get_insert_self reg

theorem c9_add_provider_duplicate_panics_witness :
    ProviderRegistry.add_provider [("openweather", (0 : Nat))] "openweather" 1 = none
    ∧ ProviderRegistry.add_provider ([] : ProviderRegistry Nat) "openweather" 1
        = some [("openweather", 1)] :=
  ⟨(c9_add_provider_duplicate_panics [("openweather", 0)] "openweather" 1).1 (by decide),
   ((c9_add_provider_duplicate_panics [] "openweather" 1).2 (by simp)).1⟩

/-- C1: `restful_get` returns the parsed success value unchanged on a 2xx
response whose body parses as `R`; returns the parsed vendor failure
verbatim (as the `api` error) on a non-2xx response whose body parses as
`E`; returns a decode error (never a default value) when a 2xx body fails
to parse as `R`; and returns a decode error carrying the HTTP status code
when a non-2xx body fails to parse as `E`. -/
theorem c1_restful_get_branches {R E : Type} (status : Nat) (text : String)
    (parse_success : String → Option R) (parse_failure : String → Option E) :
    (∀ r, status_is_success status = true → parse_success text = some r →
      restful_get (.got status (some text)) parse_success parse_failure = .ok r)
    ∧ (∀ e, status_is_success status = false → parse_failure text = some e →
      restful_get (.got status (some text)) parse_success parse_failure
        = .error (.api e))
    ∧ (status_is_success status = true → parse_success text = none →
      restful_get (.got status (some text)) parse_success parse_failure
        = .error .successShape)
    ∧ (status_is_success status = false → parse_failure text = none →
      restful_get (.got status (some text)) parse_success parse_failure
        = .error (.failureShape status)) := by
  refine ⟨fun r h1 h2 => ?_, fun e h1 h2 => ?_, fun h1 h2 => ?_, fun h1 h2 => ?_⟩ <;>
    simp [restful_get, h1, h2]

/-- Concrete success parser for the `restful_get` witness. -/
def c1_parse_nat (s : String) : Option Nat :=
  if s = "seven" then some 7 else none

/-- Concrete failure parser for the `restful_get` witness. -/
def c1_parse_err (s : String) : Option String :=
  if s = "bad" then some "code13" else none

theorem c1_restful_get_branches_witness :
    restful_get (.got 200 (some "seven")) c1_parse_nat c1_parse_err = .ok 7
    ∧ restful_get (.got 404 (some "bad")) c1_parse_nat c1_parse_err
        = .error (.api "code13")
    ∧ restful_get (.got 200 (some "bad")) c1_parse_nat c1_parse_err
        = .error .successShape
    ∧ restful_get (.got 404 (some "seven")) c1_parse_nat c1_parse_err
        = .error (.failureShape 404) :=
  ⟨(c1_restful_get_branches 200 "seven" c1_parse_nat c1_parse_err).1 7 rfl rfl,
   (c1_restful_get_branches 404 "bad" c1_parse_nat c1_parse_err).2.1 "code13" rfl rfl,
   (c1_restful_get_branches 200 "bad" c1_parse_nat c1_parse_err).2.2.1 rfl rfl,
   (c1_restful_get_branches 404 "seven" c1_parse_nat c1_parse_err).2.2.2 rfl rfl⟩

/-! ## `configure_provider` (src/main.rs lines 158-205)

External collaborators appear as oracles: `parse_toml_value` models
`toml::Value::deserialize(ValueDeserializer::new(value))` (the `toml`
crate's value grammar), `today` models `date_now()` (the system clock), and
a provider is its `read_weather` behaviour, a function from location and
date to a result (the network).  The outcome records the returned result,
the final state of the `&mut` config table, and every `read_weather` call
performed.
-/

/-- `str::split_once` on the character list: split at the first occurrence
of `c`, delimiter excluded; `none` if `c` does not occur. -/
def split_once_chars (c : Char) : List Char → Option (List Char × List Char)
  | [] => none
  | x :: xs =>
    if x = c then some ([], xs)
    else (split_once_chars c xs).map (fun p => (x :: p.1, p.2))

/-- `str::split_once(c)`. -/
def split_once (s : String) (c : Char) : Option (String × String) :=
  (split_once_chars c s.data).map (fun p => (String.mk p.1, String.mk p.2))

/-- The cause wrapped by the "When configuring (provider)" context:
either provider construction failed or the validation request failed. -/
inductive ConfigureCause (CErr WErr : Type) where
  | create (e : CErr)
  | request (e : WErr)
deriving DecidableEq

/-- Errors of `configure_provider`, one constructor per `anyhow!`/`bail!`
construction site, carrying the data its message interpolates. -/
inductive ConfigureError (CErr WErr : Type) where
  | noSuchProvider (provider : String)
  | interactiveUnimplemented
  | badSyntax (param : String)
  | paramValueParse (param : String)
  | whenConfiguring (provider : String) (cause : ConfigureCause CErr WErr)
deriving DecidableEq

/-- A type-erased provider factory (`Box<dyn ProviderFactory>` as used by
src/main.rs): `create` builds, from the collected TOML config, the provider
— itself type-erased to its `read_weather` behaviour. -/
structure Factory (CErr WErr : Type) where
  create : TomlValue → Except CErr (String → Date → Except WErr String)

/-- `DEFAULT_CONFIGURE_LOCATION` (src/main.rs line 27). -/
def DEFAULT_CONFIGURE_LOCATION : String := "London"

/-- `ACTIVE_ENTRY` (src/main.rs line 29). -/
def ACTIVE_ENTRY : String := "current"

/-- The parameter-token loop of `configure_provider` (src/main.rs lines
175-183): split each token at the first `=` (`bail!` bad syntax if there is
none), parse the value text with the `toml` value grammar, and insert into
the new config table. -/
def collect_params (CErr WErr : Type) (parse_toml_value : String → Option TomlValue) :
    List String → TomlTable → Except (ConfigureError CErr WErr) TomlTable
  | [], new_config => .ok new_config
  | param :: rest, new_config =>
    match split_once param '=' with
    | none => .error (.badSyntax param)
    | some (name, value) =>
      match parse_toml_value value with
      | none => .error (.paramValueParse param)
      | some v => collect_params CErr WErr parse_toml_value rest (bt_insert name v new_config)

/-- The observable outcome of `configure_provider`: the returned result,
the final state of the `&mut` config table, and the `read_weather` calls
performed (location and date arguments). -/
structure ConfigureOutcome (CErr WErr : Type) where
  result : Except (ConfigureError CErr WErr) Unit
  config : TomlTable
  read_weather_calls : List (String × Date)

/-- `configure_provider` (src/main.rs lines 158-205): look the provider up
in the registry, bail on an empty token list (interactive mode is
unimplemented), collect the `name=value` tokens into a fresh table,
construct the provider from it, perform one validation `read_weather` call
against `DEFAULT_CONFIGURE_LOCATION` with `date_now()`, and only on
success store the section (first setting `ACTIVE_ENTRY` to the provider's
name if the config table was empty). -/
def configure_provider (registry : ProviderRegistry (Factory CErr WErr))
    (parse_toml_value : String → Option TomlValue) (today : Date)
    (config : TomlTable) (provider : String) (parameters : List String) :
    ConfigureOutcome CErr WErr :=
  match bt_get provider registry with
  | none => ⟨.error (.noSuchProvider provider), config, []⟩
  | some factory =>
    if parameters.isEmpty then ⟨.error .interactiveUnimplemented, config, []⟩
    else
      match collect_params CErr WErr parse_toml_value parameters [] with
      | .error e => ⟨.error e, config, []⟩
      | .ok new_config =>
        match factory.create (.table new_config) with
        | .error e => ⟨.error (.whenConfiguring provider (.create e)), config, []⟩
        | .ok read_weather =>
          match read_weather DEFAULT_CONFIGURE_LOCATION today with
          | .error e =>
            ⟨.error (.whenConfiguring provider (.request e)), config,
              [(DEFAULT_CONFIGURE_LOCATION, today)]⟩
          | .ok _ =>
            ⟨.ok (),
              bt_insert provider (.table new_config)
                (if config.isEmpty
                  then bt_insert ACTIVE_ENTRY (.string provider) config
                  else config),
              [(DEFAULT_CONFIGURE_LOCATION, today)]⟩

theorem configure_provider_spec {CErr WErr : Type}
    {registry : ProviderRegistry (Factory CErr WErr)}
    {pv : String → Option TomlValue} {today : Date} {config : TomlTable}
    {provider : String} {parameters : List String} {factory : Factory CErr WErr}
    {nc : TomlTable} {rw0 : String → Date → Except WErr String}
    (hfac : bt_get provider registry = some factory)
    (hne : parameters ≠ [])
    (hcol : collect_params CErr WErr pv parameters [] = .ok nc)
    (hcre : factory.create (.table nc) = .ok rw0) :
    (configure_provider registry pv today config provider parameters).read_weather_calls
      = [(DEFAULT_CONFIGURE_LOCATION, today)]
    ∧ (∀ e, rw0 DEFAULT_CONFIGURE_LOCATION today = .error e →
        configure_provider registry pv today config provider parameters
          = ⟨.error (.whenConfiguring provider (.request e)), config,
              [(DEFAULT_CONFIGURE_LOCATION, today)]⟩)
    ∧ (∀ w, rw0 DEFAULT_CONFIGURE_LOCATION today = .ok w →
        configure_provider registry pv today config provider parameters
          = ⟨.ok (),
              bt_insert provider (.table nc)
                (if config.isEmpty
                  then bt_insert ACTIVE_ENTRY (.string provider) config
                  else config),
              [(DEFAULT_CONFIGURE_LOCATION, today)]⟩) := by
  have hne' : parameters.isEmpty = false := by
    cases parameters with
    | nil => exact absurd rfl hne
    | cons a l => rfl
  refine ⟨?_, fun e he => ?_, fun w hw => ?_⟩
  · cases hrw : rw0 DEFAULT_CONFIGURE_LOCATION today with
    | error e => simp [configure_provider, hfac, hne', hcol, hcre, hrw]
    | ok w => simp [configure_provider, hfac, hne', hcol, hcre, hrw]
  · simp [configure_provider, hfac, hne', hcol, hcre, he]
  · simp [configure_provider, hfac, hne', hcol, hcre, hw]

theorem bt_keys_insert_superset {k n : String} {v : α} :
    ∀ {m : List (String × α)}, k ∈ m.map Prod.fst →
      k ∈ (bt_insert n v m).map Prod.fst
  | [], hk => by simp at hk
  | (k', v') :: rest, hk => by
    rw [List.map_cons, List.mem_cons] at hk
    by_cases h1 : strLtB n k'
    · rw [bt_insert, if_pos h1, List.map_cons, List.map_cons, List.mem_cons, List.mem_cons]
      rcases hk with hk | hk
      · exact Or.inr (Or.inl hk)
      · exact Or.inr (Or.inr hk)
    · by_cases h2 : n = k'
      · subst h2
        rw [bt_insert, if_neg h1, if_pos rfl, List.map_cons, List.mem_cons]
        rcases hk with hk | hk
        · exact Or.inl hk
        · exact Or.inr hk
      · rw [bt_insert, if_neg h1, if_neg h2, List.map_cons, List.mem_cons]
        rcases hk with hk | hk
        · exact Or.inl hk
        · exact Or.inr (bt_keys_insert_superset hk)

theorem bt_self_mem_keys_insert {n : String} {v : α} :
    ∀ m : List (String × α), n ∈ (bt_insert n v m).map Prod.fst
  | [] => by simp [bt_insert]
  | (k', v') :: rest => by
    by_cases h1 : strLtB n k'
    · rw [bt_insert, if_pos h1, List.map_cons]
      exact List.mem_cons_self _ _
    · by_cases h2 : n = k'
      · rw [bt_insert, if_neg h1, if_pos h2, List.map_cons]
        exact List.mem_cons_self _ _
      · rw [bt_insert, if_neg h1, if_neg h2, List.map_cons]
        exact List.mem_cons_of_mem _ (bt_self_mem_keys_insert rest)

theorem collect_params_keys_mono {CErr WErr : Type}
    {pv : String → Option TomlValue} :
    ∀ {params : List String} {acc nc : TomlTable},
      collect_params CErr WErr pv params acc = .ok nc →
      ∀ k, k ∈ acc.map Prod.fst → k ∈ nc.map Prod.fst
  | [], acc, nc, h, k, hk => by
    rw [collect_params, Except.ok.injEq] at h
    exact h ▸ hk
  | param :: rest, acc, nc, h, k, hk => by
    rw [collect_params] at h
    cases hs : split_once param '=' with
    | none => simp [hs] at h
    | some p =>
      obtain ⟨n1, v1⟩ := p
      simp only [hs] at h
      cases hp : pv v1 with
      | none => simp [hp] at h
      | some v =>
        simp only [hp] at h
        exact collect_params_keys_mono h k (bt_keys_insert_superset hk)

theorem collect_params_token_keys {CErr WErr : Type}
    {pv : String → Option TomlValue} :
    ∀ {params : List String} {acc nc : TomlTable},
      collect_params CErr WErr pv params acc = .ok nc →
      ∀ p ∈ params, ∀ n v, split_once p '=' = some (n, v) →
        n ∈ nc.map Prod.fst
  | [], acc, nc, _, p, hp => by simp at hp
  | param :: rest, acc, nc, h, p, hp => by
    intro n v hsplit
    rw [collect_params] at h
    rcases List.mem_cons.1 hp with hp1 | hp1
    · subst hp1
      simp only [hsplit] at h
      cases ht : pv v with
      | none => simp [ht] at h
      | some t =>
        simp only [ht] at h
        exact collect_params_keys_mono h n (bt_self_mem_keys_insert acc)
    · cases hs : split_once param '=' with
      | none => simp [hs] at h
      | some q =>
        obtain ⟨qn, qv⟩ := q
        simp only [hs] at h
        cases ht : pv qv with
        | none => simp [ht] at h
        | some t =>
          simp only [ht] at h
          exact collect_params_token_keys h p hp1 n v hsplit

theorem collect_params_bad_syntax {CErr WErr : Type}
    {pv : String → Option TomlValue} {bad : String} (hbad : split_once bad '=' = none) :
    ∀ {pre : List String} (rest : List String),
      (∀ p ∈ pre, ∃ n v t, split_once p '=' = some (n, v) ∧ pv v = some t) →
      ∀ acc, collect_params CErr WErr pv (pre ++ bad :: rest) acc
        = .error (.badSyntax bad)
  | [], rest, _, acc => by
    rw [List.nil_append, collect_params, hbad]
  | p :: pre, rest, hpre, acc => by
    obtain ⟨n, v, t, hs, ht⟩ := hpre p (List.mem_cons_self _ _)
    rw [List.cons_append, collect_params]
    simp only [hs, ht]
    exact collect_params_bad_syntax hbad rest
      (fun q hq => hpre q (List.mem_cons_of_mem _ hq)) _

theorem split_once_chars_at_first {c : Char} :
    ∀ {a : List Char} (b : List Char), c ∉ a →
      split_once_chars c (a ++ c :: b) = some (a, b)
  | [], b, _ => by simp [split_once_chars]
  | x :: a, b, h => by
    rw [List.mem_cons, not_or] at h
    rw [List.cons_append, split_once_chars, if_neg (fun hc => h.1 hc.symm),
      split_once_chars_at_first b h.2]
    rfl

/-! ## Provider descriptors (src/provider.rs) -/

/-- `ParamDesc` (src/provider.rs): one required configuration parameter. -/
structure ParamDesc where
  id : String
  name : String
  description : String

/-- `ProviderInfo` (src/provider.rs): static descriptor of a provider. -/
structure ProviderInfo where
  description : String
  params : List ParamDesc

/-- `OpenWeather::info` (src/provider/openweather.rs lines 114-127); the
only declared parameter id is `apikey`.  (Apostrophes in the original
literals are transliterated.) -/
def OpenWeather.info : ProviderInfo where
  description :=
    "OpenWeather (https://openweathermap.org/); does not support specific dates, only current conditions"
  params :=
    [{ id := "apikey"
       name := "Users API key"
       description := "used to authenticate user requests" }]

/-! ## Concrete fixtures for witnesses and counterexamples -/

/-- A factory whose construction and validation request both succeed
(the network oracle answers the validation call positively). -/
def stub_factory : Factory Unit Unit :=
  ⟨fun _ => .ok (fun _ _ => .ok "stub forecast")⟩

/-- A registry holding `stub_factory` under the name `stub`. -/
def stub_registry : ProviderRegistry (Factory Unit Unit) :=
  [("stub", stub_factory)]

/-- A registry holding `stub_factory` under the name `openweather`. -/
def openweather_registry : ProviderRegistry (Factory Unit Unit) :=
  [("openweather", stub_factory)]

/-- A factory whose validation request fails (network/key rejected). -/
def failing_factory : Factory Unit Unit :=
  ⟨fun _ => .ok (fun _ _ => .error ())⟩

/-- A registry holding `failing_factory` under the name `stub`. -/
def failing_registry : ProviderRegistry (Factory Unit Unit) :=
  [("stub", failing_factory)]

/-- The `toml` value grammar restricted to the inputs of the concrete runs
below: integer literals such as `1` and `2` are TOML values; a bare
unquoted word such as `zzz` is not (TOML strings must be quoted). -/
def sample_parse_toml_value (s : String) : Option TomlValue :=
  if s = "1" then some (.integer 1)
  else if s = "2" then some (.integer 2)
  else none

/-- A permissive value parser (every value text accepted as a string), for
runs whose claim does not hinge on the value grammar. -/
def lenient_parse_toml_value (s : String) : Option TomlValue :=
  some (.string s)

/-- A sample current date (`date_now()` result) for concrete runs. -/
def sample_today : Date := ⟨2024, 5, 17⟩

/-- C2 (amended: the validation call passes `date_now()`, the current
date — `read_weather`'s date argument is mandatory in this snapshot — not
an omitted date): when the token list is nonempty, all tokens collect, and
the factory constructs the provider, `configure_provider` performs exactly
one validation `read_weather` call, against `DEFAULT_CONFIGURE_LOCATION`
with the current date; if that call fails the error is surfaced under a
context naming the provider and the config table is unchanged; if it
succeeds the collected section is stored under the provider's name, the
active-provider entry being set first when the table was empty. -/
theorem c2_configure_validates_then_persists {CErr WErr : Type}
    {registry : ProviderRegistry (Factory CErr WErr)}
    {pv : String → Option TomlValue} {today : Date} {config : TomlTable}
    {provider : String} {parameters : List String} {factory : Factory CErr WErr}
    {nc : TomlTable} {rw0 : String → Date → Except WErr String}
    (hfac : bt_get provider registry = some factory)
    (hne : parameters ≠ [])
    (hcol : collect_params CErr WErr pv parameters [] = .ok nc)
    (hcre : factory.create (.table nc) = .ok rw0) :
    (configure_provider registry pv today config provider parameters).read_weather_calls
      = [(DEFAULT_CONFIGURE_LOCATION, today)]
    ∧ (∀ e, rw0 DEFAULT_CONFIGURE_LOCATION today = .error e →
        configure_provider registry pv today config provider parameters
          = ⟨.error (.whenConfiguring provider (.request e)), config,
              [(DEFAULT_CONFIGURE_LOCATION, today)]⟩)
    ∧ (∀ w, rw0 DEFAULT_CONFIGURE_LOCATION today = .ok w →
        configure_provider registry pv today config provider parameters
          = ⟨.ok (),
              bt_insert provider (.table nc)
                (if config.isEmpty
                  then bt_insert ACTIVE_ENTRY (.string provider) config
                  else config),
              [(DEFAULT_CONFIGURE_LOCATION, today)]⟩) :=
  configure_provider_spec hfac hne hcol hcre

theorem c2_configure_validates_then_persists_witness :
    (configure_provider stub_registry lenient_parse_toml_value sample_today []
        "stub" ["apikey=XYZ"]).read_weather_calls
      = [(DEFAULT_CONFIGURE_LOCATION, sample_today)]
    ∧ configure_provider failing_registry lenient_parse_toml_value sample_today
        [("other", .boolean true)] "stub" ["apikey=XYZ"]
      = ⟨.error (.whenConfiguring "stub" (.request ())),
          [("other", .boolean true)], [(DEFAULT_CONFIGURE_LOCATION, sample_today)]⟩ :=
  have h1 := @c2_configure_validates_then_persists Unit Unit stub_registry
    lenient_parse_toml_value sample_today [] "stub" ["apikey=XYZ"] stub_factory
    [("apikey", TomlValue.string "XYZ")] (fun _ _ => Except.ok "stub forecast")
    rfl (by simp) rfl rfl
  have h2 := @c2_configure_validates_then_persists Unit Unit failing_registry
    lenient_parse_toml_value sample_today [("other", TomlValue.boolean true)] "stub"
    ["apikey=XYZ"] failing_factory [("apikey", TomlValue.string "XYZ")]
    (fun _ _ => Except.error ()) rfl (by simp) rfl rfl
  ⟨h1.1, h2.2.1 () rfl⟩

/-- Modelled from the spec: the validation call §4.4 prescribes —
`get_weather` against the fixed reference location and **no** date (the
`Provider` trait in src/provider.rs takes `date : Option<Date>`; `none`
means current conditions). -/
def spec_validation_call : String × Option Date :=
  (DEFAULT_CONFIGURE_LOCATION, none)

/-- C2 counterexample: in a concrete successful run, the single validation
call passes `date_now()` — lifting the call's mandatory date argument to
the trait-level `Option<Date>` form yields `some today`, not the spec's
no-date call. -/
theorem c2_counterexample_date_is_supplied :
    (configure_provider stub_registry lenient_parse_toml_value sample_today []
        "stub" ["apikey=XYZ"]).read_weather_calls.map (fun c => (c.1, some c.2))
      ≠ [spec_validation_call] := by
  decide

/-- C5 (amended): `configure_provider` checks token keys against nothing —
it has no unknown-parameter rejection; on a successful run the section
persisted under the provider's name is exactly the collected table, which
contains a binding for the key of every supplied token, declared or not. -/
theorem c5_no_unknown_parameter_check {CErr WErr : Type}
    {registry : ProviderRegistry (Factory CErr WErr)}
    {pv : String → Option TomlValue} {today : Date} {config : TomlTable}
    {provider : String} {parameters : List String} {factory : Factory CErr WErr}
    {nc : TomlTable} {rw0 : String → Date → Except WErr String} {w : String}
    (hfac : bt_get provider registry = some factory)
    (hne : parameters ≠ [])
    (hcol : collect_params CErr WErr pv parameters [] = .ok nc)
    (hcre : factory.create (.table nc) = .ok rw0)
    (hreq : rw0 DEFAULT_CONFIGURE_LOCATION today = .ok w) :
    (configure_provider registry pv today config provider parameters).result = .ok ()
    ∧ bt_get provider
        (configure_provider registry pv today config provider parameters).config
      = some (.table nc)
    ∧ ∀ p ∈ parameters, ∀ n v, split_once p '=' = some (n, v) →
        n ∈ nc.map Prod.fst := by
  have h := (@configure_provider_spec CErr WErr registry pv today config provider
    parameters factory nc rw0 hfac hne hcol hcre).2.2 w hreq
  rw [h]
  exact ⟨rfl, bt_get_insert_self _, collect_params_token_keys hcol⟩

theorem c5_no_unknown_parameter_check_witness :
    (configure_provider openweather_registry sample_parse_toml_value sample_today []
        "openweather" ["apikey=1"]).result = .ok ()
    ∧ "apikey" ∈ ([("apikey", TomlValue.integer 1)] : TomlTable).map Prod.fst :=
  have h := @c5_no_unknown_parameter_check Unit Unit openweather_registry
    sample_parse_toml_value sample_today [] "openweather" ["apikey=1"] stub_factory
    [("apikey", TomlValue.integer 1)] (fun _ _ => Except.ok "stub forecast")
    "stub forecast" rfl (by simp) rfl rfl rfl
  ⟨h.1, h.2.2 "apikey=1" (by simp) "apikey" "1" rfl⟩

/-- C5 counterexample: `configure openweather apikey=1 bogus=2` — the key
`bogus` is not among OpenWeather's declared parameter ids, yet collection
does not fail with any unknown-parameter error: the run succeeds and the
persisted `openweather` section contains `bogus`. -/
theorem c5_counterexample_unknown_key_accepted :
    (configure_provider openweather_registry sample_parse_toml_value sample_today []
        "openweather" ["apikey=1", "bogus=2"]).result = .ok ()
    ∧ bt_get "openweather"
        (configure_provider openweather_registry sample_parse_toml_value sample_today []
          "openweather" ["apikey=1", "bogus=2"]).config
      = some (.table [("apikey", .integer 1), ("bogus", .integer 2)])
    ∧ "bogus" ∉ OpenWeather.info.params.map ParamDesc.id :=
  ⟨rfl, rfl, by decide⟩

/-- C6 (amended: provided every token before the first `=`-less token has a
value the `toml` grammar accepts — otherwise the earlier token's value-parse
failure is reported instead): with the provider registered,
`configure_provider` fails with a bad-syntax error identifying the first
`=`-less token and leaves the config table unmodified; a token containing
`=` is split at its first `=`. -/
theorem c6_bad_syntax_token {CErr WErr : Type}
    {registry : ProviderRegistry (Factory CErr WErr)}
    {pv : String → Option TomlValue} {today : Date} {config : TomlTable}
    {provider : String} {factory : Factory CErr WErr}
    {pre : List String} {rest : List String} {bad : String}
    (hfac : bt_get provider registry = some factory)
    (hpre : ∀ p ∈ pre, ∃ n v t, split_once p '=' = some (n, v) ∧ pv v = some t)
    (hbad : split_once bad '=' = none) :
    configure_provider registry pv today config provider (pre ++ bad :: rest)
      = ⟨.error (.badSyntax bad), config, []⟩
    ∧ ∀ (a b : List Char), '=' ∉ a →
        split_once (String.mk (a ++ '=' :: b)) '=' = some (String.mk a, String.mk b) := by
  constructor
  · have hne : (pre ++ bad :: rest).isEmpty = false := by
      cases pre <;> rfl
    simp [configure_provider, hfac, hne, collect_params_bad_syntax hbad rest hpre []]
  · intro a b h
    simp [split_once, split_once_chars_at_first b h]

theorem c6_bad_syntax_token_witness :
    configure_provider openweather_registry sample_parse_toml_value sample_today
        [("keep", .boolean true)] "openweather" ["apikey=1", "b"]
      = ⟨.error (.badSyntax "b"), [("keep", .boolean true)], []⟩
    ∧ split_once "ab=c" '=' = some ("ab", "c") :=
  have h := @c6_bad_syntax_token Unit Unit openweather_registry
    sample_parse_toml_value sample_today [("keep", TomlValue.boolean true)]
    "openweather" stub_factory ["apikey=1"] [] "b" rfl
    (fun p hp => by
      rw [List.mem_singleton] at hp
      subst hp
      exact ⟨"apikey", "1", TomlValue.integer 1, rfl, rfl⟩)
    rfl
  ⟨h.1, h.2 ['a', 'b'] ['c'] (by decide)⟩

/-- C6 counterexample: the token list `["a=zzz", "b"]` contains the
`=`-less token `b`, but the run fails with the value-parse error for
`a=zzz` (the `toml` grammar rejects the bare word `zzz`), not with a
bad-syntax error naming `b`. -/
theorem c6_counterexample_value_parse_preempts :
    (configure_provider openweather_registry sample_parse_toml_value sample_today []
        "openweather" ["a=zzz", "b"]).result
      = .error (.paramValueParse "a=zzz")
    ∧ (configure_provider openweather_registry sample_parse_toml_value sample_today []
        "openweather" ["a=zzz", "b"]).result
      ≠ .error (.badSyntax "b") :=
  ⟨rfl, fun hc => ConfigureError.noConfusion (Except.error.inj hc)⟩

/-- C7 (code bug): an empty parameter list does not trigger interactive
collection; `configure_provider` bails out immediately with the
interactive-mode-unimplemented error ("Sorry, interactive mode not
implemented yet"), issuing no prompt and no validation call and leaving the
config table unchanged — although the function's own documentation and the
CLI help (src/main.rs lines 44-46) promise an interactive mode, and the
collection algorithm prescribes one prompt per declared parameter in
descriptor order. -/
theorem c7_interactive_mode_unimplemented :
    configure_provider openweather_registry sample_parse_toml_value sample_today
        [("keep", .boolean true)] "openweather" []
      = ⟨.error .interactiveUnimplemented, [("keep", .boolean true)], []⟩ := rfl

/-! ## `clear_providers` (src/main.rs lines 254-281) -/

/-- Iterated `config.remove(name)` over a list of names (the body of the
"all" branch: `for name in registry.keys()`). -/
def fold_remove (ks : List String) (m : List (String × α)) : List (String × α) :=
  ks.foldl (fun c k => bt_remove k c) m

/-- The "all" branch of `clear_providers`: remove every registered
provider's section from the config. -/
def remove_all_registered {F : Type} (registry : ProviderRegistry F)
    (config : TomlTable) : TomlTable :=
  fold_remove (registry.map Prod.fst) config

/-- The provider-removal loop of `clear_providers`: `"all"` clears every
registered provider's section, a registered name clears that name's
section, and an unregistered name aborts with the no-such-provider `bail!`
(the error carries the offending name; sections removed before the abort
stay removed). -/
def remove_providers {F : Type} (registry : ProviderRegistry F) (config : TomlTable) :
    List String → Except String TomlTable
  | [] => .ok config
  | prov_name :: rest =>
    if prov_name = "all" then
      remove_providers registry (remove_all_registered registry config) rest
    else if bt_contains prov_name registry then
      remove_providers registry (bt_remove prov_name config) rest
    else .error prov_name

/-- The trailing default-entry check of `clear_providers` (src/main.rs
lines 273-278): if `ACTIVE_ENTRY` holds a string that is no longer a key of
the config, remove `ACTIVE_ENTRY`. -/
def clear_default_entry (config : TomlTable) : TomlTable :=
  match bt_get ACTIVE_ENTRY config with
  | some (TomlValue.string s) =>
    if bt_contains s config then config else bt_remove ACTIVE_ENTRY config
  | _ => config

/-- `clear_providers` (src/main.rs lines 254-281): run the removal loop,
then the default-entry check. -/
def clear_providers {F : Type} (registry : ProviderRegistry F) (config : TomlTable)
    (providers : List String) : Except String TomlTable :=
  (remove_providers registry config providers).map clear_default_entry

theorem fold_remove_keys_subset :
    ∀ (ks : List String) (m : List (String × α)),
      (fold_remove ks m).map Prod.fst ⊆ m.map Prod.fst
  | [], _ => fun _ ha => ha
  | k :: ks, m => fun _ ha =>
    bt_remove_keys_subset (fold_remove_keys_subset ks (bt_remove k m) ha)

theorem fold_remove_nodup :
    ∀ (ks : List String) {m : List (String × α)},
      (m.map Prod.fst).Nodup → ((fold_remove ks m).map Prod.fst).Nodup
  | [], _, h => h
  | _ :: ks, _, h => fold_remove_nodup ks (bt_remove_nodup h)

theorem fold_remove_not_mem {k : String} :
    ∀ {ks : List String} {m : List (String × α)}, k ∈ ks →
      (m.map Prod.fst).Nodup → k ∉ (fold_remove ks m).map Prod.fst
  | q :: ks, m, hk, hnd => by
    rcases List.mem_cons.1 hk with hk1 | hk1
    · subst hk1
      intro hc
      exact bt_not_mem_remove_self hnd (fold_remove_keys_subset ks (bt_remove k m) hc)
    · show k ∉ (fold_remove ks (bt_remove q m)).map Prod.fst
      exact fold_remove_not_mem hk1 (bt_remove_nodup hnd)

theorem fold_remove_of_disjoint :
    ∀ {ks : List String} {m : List (String × α)},
      (∀ k ∈ ks, k ∉ m.map Prod.fst) → fold_remove ks m = m
  | [], _, _ => rfl
  | k :: ks, m, h => by
    show fold_remove ks (bt_remove k m) = m
    rw [bt_remove_of_not_mem (h k (List.mem_cons_self _ _))]
    exact fold_remove_of_disjoint (fun q hq => h q (List.mem_cons_of_mem _ hq))

theorem clear_default_entry_eq (t : TomlTable) :
    clear_default_entry t = t ∨ clear_default_entry t = bt_remove ACTIVE_ENTRY t := by
  rw [clear_default_entry]
  cases bt_get ACTIVE_ENTRY t with
  | none => exact Or.inl rfl
  | some v =>
    cases v with
    | string s =>
      by_cases hc : bt_contains s t = true
      · exact Or.inl (by simp [hc])
      · exact Or.inr (by simp [hc])
    | integer n => exact Or.inl rfl
    | boolean b => exact Or.inl rfl
    | table m => exact Or.inl rfl

theorem clear_default_entry_keys_subset {t : TomlTable} :
    (clear_default_entry t).map Prod.fst ⊆ t.map Prod.fst := by
  rcases clear_default_entry_eq t with h | h
  · rw [h]
    exact fun _ ha => ha
  · rw [h]; exact bt_remove_keys_subset

theorem clear_default_entry_nodup {t : TomlTable} (hnd : (t.map Prod.fst).Nodup) :
    ((clear_default_entry t).map Prod.fst).Nodup := by
  rcases clear_default_entry_eq t with h | h
  · rw [h]; exact hnd
  · rw [h]; exact bt_remove_nodup hnd

theorem clear_default_entry_invariant {t : TomlTable}
    (hnd : (t.map Prod.fst).Nodup) {s : String}
    (hs : bt_get ACTIVE_ENTRY (clear_default_entry t) = some (.string s)) :
    bt_contains s (clear_default_entry t) = true := by
  cases hg : bt_get ACTIVE_ENTRY t with
  | none =>
    have ht : clear_default_entry t = t := by rw [clear_default_entry, hg]
    rw [ht] at hs ⊢
    rw [hg] at hs
    exact absurd hs (by simp)
  | some v =>
    cases v with
    | string s0 =>
      by_cases hc : bt_contains s0 t = true
      · have ht : clear_default_entry t = t := by
          rw [clear_default_entry, hg]
          simp [hc]
        rw [ht] at hs ⊢
        rw [hg, Option.some_inj, TomlValue.string.injEq] at hs
        exact hs ▸ hc
      · have ht : clear_default_entry t = bt_remove ACTIVE_ENTRY t := by
          rw [clear_default_entry, hg]
          simp [hc]
        rw [ht] at hs
        rw [bt_get_remove_self hnd] at hs
        exact absurd hs (by simp)
    | integer n =>
      have ht : clear_default_entry t = t := by rw [clear_default_entry, hg]
      rw [ht] at hs ⊢
      rw [hg] at hs
      exact absurd hs (by simp)
    | boolean b =>
      have ht : clear_default_entry t = t := by rw [clear_default_entry, hg]
      rw [ht] at hs ⊢
      rw [hg] at hs
      exact absurd hs (by simp)
    | table m =>
      have ht : clear_default_entry t = t := by rw [clear_default_entry, hg]
      rw [ht] at hs ⊢
      rw [hg] at hs
      exact absurd hs (by simp)

theorem clear_default_entry_idem {t : TomlTable} (hnd : (t.map Prod.fst).Nodup) :
    clear_default_entry (clear_default_entry t) = clear_default_entry t := by
  cases hg : bt_get ACTIVE_ENTRY t with
  | none =>
    have ht : clear_default_entry t = t := by rw [clear_default_entry, hg]
    rw [ht, clear_default_entry, hg]
  | some v =>
    cases v with
    | string s0 =>
      by_cases hc : bt_contains s0 t = true
      · have ht : clear_default_entry t = t := by
          rw [clear_default_entry, hg]
          simp [hc]
        rw [ht, ht]
      · have ht : clear_default_entry t = bt_remove ACTIVE_ENTRY t := by
          rw [clear_default_entry, hg]
          simp [hc]
        rw [ht, clear_default_entry, bt_get_remove_self hnd]
    | integer n =>
      have ht : clear_default_entry t = t := by rw [clear_default_entry, hg]
      rw [ht, ht]
    | boolean b =>
      have ht : clear_default_entry t = t := by rw [clear_default_entry, hg]
      rw [ht, ht]
    | table m =>
      have ht : clear_default_entry t = t := by rw [clear_default_entry, hg]
      rw [ht, ht]

theorem remove_providers_error_unregistered {F : Type}
    {registry : ProviderRegistry F} :
    ∀ {provs : List String} {config : TomlTable} {n : String},
      remove_providers registry config provs = .error n →
      bt_contains n registry = false
  | [], config, n, h => by simp [remove_providers] at h
  | q :: rest, config, n, h => by
    rw [remove_providers] at h
    by_cases h1 : q = "all"
    · rw [if_pos h1] at h
      exact remove_providers_error_unregistered h
    · rw [if_neg h1] at h
      cases h2 : bt_contains q registry with
      | true =>
        simp only [h2, if_true] at h
        exact remove_providers_error_unregistered h
      | false =>
        simp only [h2, Bool.false_eq_true, if_false, Except.error.injEq] at h
        exact h ▸ h2

theorem remove_providers_nodup {F : Type} {registry : ProviderRegistry F} :
    ∀ {provs : List String} {config t : TomlTable},
      (config.map Prod.fst).Nodup →
      remove_providers registry config provs = .ok t →
      (t.map Prod.fst).Nodup
  | [], config, t, hnd, h => by
    rw [remove_providers, Except.ok.injEq] at h
    exact h ▸ hnd
  | q :: rest, config, t, hnd, h => by
    rw [remove_providers] at h
    by_cases h1 : q = "all"
    · rw [if_pos h1] at h
      exact remove_providers_nodup (fold_remove_nodup _ hnd) h
    · rw [if_neg h1] at h
      by_cases h2 : bt_contains q registry = true
      · rw [if_pos h2] at h
        exact remove_providers_nodup (bt_remove_nodup hnd) h
      · rw [if_neg h2] at h
        exact absurd h (by simp)

/-- C8: for any registered name `p` — including `"all"`, and including the
case where the config holds no section for `p` (removing an absent section
is a no-op, not an error) — `clear_providers` with `[p]` succeeds, and a
second run succeeds yielding the same config; the no-such-provider failure
only ever carries a name that is not registered. -/
theorem c8_clear_registered_idempotent {F : Type} (registry : ProviderRegistry F)
    (config : TomlTable) (p : String)
    (hnd : (config.map Prod.fst).Nodup)
    (hp : bt_contains p registry = true) :
    (∃ c1, clear_providers registry config [p] = .ok c1
        ∧ clear_providers registry c1 [p] = .ok c1)
    ∧ ∀ (provs : List String) (n : String),
        clear_providers registry config provs = .error n →
        bt_contains n registry = false := by
  constructor
  · by_cases hall : p = "all"
    · subst hall
      refine ⟨clear_default_entry (remove_all_registered registry config), ?_, ?_⟩
      · rw [clear_providers, remove_providers, if_pos rfl, remove_providers]
        rfl
      · rw [clear_providers, remove_providers, if_pos rfl]
        have h2 : remove_all_registered registry
            (clear_default_entry (remove_all_registered registry config))
            = clear_default_entry (remove_all_registered registry config) :=
          fold_remove_of_disjoint (fun k hk hc =>
            fold_remove_not_mem hk hnd (clear_default_entry_keys_subset hc))
        rw [h2, remove_providers]
        show Except.ok (clear_default_entry (clear_default_entry
          (remove_all_registered registry config))) = _
        have h3 : clear_default_entry (clear_default_entry
            (remove_all_registered registry config))
            = clear_default_entry (remove_all_registered registry config) :=
          clear_default_entry_idem (fold_remove_nodup _ hnd)
        rw [h3]
    · refine ⟨clear_default_entry (bt_remove p config), ?_, ?_⟩
      · rw [clear_providers, remove_providers, if_neg hall, if_pos hp, remove_providers]
        rfl
      · rw [clear_providers, remove_providers, if_neg hall, if_pos hp]
        have h2 : bt_remove p (clear_default_entry (bt_remove p config))
            = clear_default_entry (bt_remove p config) :=
          bt_remove_of_not_mem (fun hc =>
            bt_not_mem_remove_self hnd (clear_default_entry_keys_subset hc))
        rw [h2, remove_providers]
        show Except.ok (clear_default_entry (clear_default_entry
          (bt_remove p config))) = _
        rw [clear_default_entry_idem (bt_remove_nodup hnd)]
  · intro provs n h
    rw [clear_providers] at h
    cases hr : remove_providers registry config provs with
    | ok t =>
      rw [hr] at h
      exact absurd h (by simp [Except.map])
    | error m =>
      rw [hr] at h
      simp only [Except.map, Except.error.injEq] at h
      exact h ▸ remove_providers_error_unregistered hr

/-- A registry (factory payload irrelevant) holding one provider `stub`. -/
def nat_stub_registry : ProviderRegistry Nat := [("stub", 0)]

/-- A config with a `stub` section and `current` pointing at it. -/
def sample_clear_config : TomlTable :=
  [("current", TomlValue.string "stub"), ("stub", TomlValue.table [])]

theorem c8_clear_registered_idempotent_witness :
    (∃ c1, clear_providers nat_stub_registry sample_clear_config ["stub"] = .ok c1
        ∧ clear_providers nat_stub_registry c1 ["stub"] = .ok c1)
    ∧ bt_contains "nope" nat_stub_registry = false :=
  have h := c8_clear_registered_idempotent nat_stub_registry sample_clear_config
    "stub" (by decide) rfl
  ⟨h.1, h.2 ["nope"] "nope" rfl⟩

/-- C10: whenever `clear_providers` returns successfully, the resulting
config satisfies: if `ACTIVE_ENTRY` is still present with a string value
`s`, then `s` is a key of the resulting config — clearing never leaves the
default-provider marker dangling. -/
theorem c10_no_dangling_default {F : Type} (registry : ProviderRegistry F)
    (config : TomlTable) (provs : List String) (c1 : TomlTable)
    (hnd : (config.map Prod.fst).Nodup)
    (hok : clear_providers registry config provs = .ok c1) :
    ∀ s, bt_get ACTIVE_ENTRY c1 = some (.string s) → bt_contains s c1 = true := by
  obtain ⟨t, ht, hc1⟩ : ∃ t, remove_providers registry config provs = .ok t
      ∧ c1 = clear_default_entry t := by
    rw [clear_providers] at hok
    cases hr : remove_providers registry config provs with
    | ok t =>
      rw [hr] at hok
      simp only [Except.map, Except.ok.injEq] at hok
      exact ⟨t, rfl, hok.symm⟩
    | error m =>
      rw [hr] at hok
      exact absurd hok (by simp [Except.map])
  intro s hs
  rw [hc1] at hs ⊢
  exact clear_default_entry_invariant (remove_providers_nodup hnd ht) hs

theorem c10_no_dangling_default_witness :
    clear_providers nat_stub_registry sample_clear_config [] = .ok sample_clear_config
    ∧ bt_contains "stub" sample_clear_config = true :=
  ⟨rfl, c10_no_dangling_default nat_stub_registry sample_clear_config []
    sample_clear_config (by decide) rfl "stub" rfl⟩

/-! ## Provider pipelines (src/provider/openweather.rs, accuweather.rs)

`f32`/`f64` payloads are an opaque type parameter `F`; float formatting
(`{lat:.4}`), unit conversion (`* KM_H_M_S`) and the `> 5.0` comparison are
passed as oracles.  Each `restful_get::<R, E>` call appears as an oracle
from the request URL to the already-decoded result, and every issued URL is
logged, so "no network call" is the log being empty.
-/

/-- `WeatherKind` (src/provider.rs). -/
inductive WeatherKind where
  | unknown
  | clear
  | clouds
  | fog
  | rain
  | snow

/-- `WeatherInfo` (src/provider.rs), over opaque float type `F`. -/
structure WeatherInfo (F : Type) where
  weather : WeatherKind
  temperature : F
  wind_speed : F
  humidity : F

/-- `Coords` (openweather.rs): one geocoding result. -/
structure OpenWeather.Coords (F : Type) where
  lat : F
  lon : F

/-- `MainSection` (openweather.rs). -/
structure OpenWeather.MainSection (F : Type) where
  temp : F
  humidity : F

/-- `WindSection` (openweather.rs). -/
structure OpenWeather.WindSection (F : Type) where
  speed : F

/-- `WeatherSection` (openweather.rs): a weather-condition code entry. -/
structure OpenWeather.WeatherSection where
  id : Nat

/-- `WeatherData` (openweather.rs): the weather response root. -/
structure OpenWeather.WeatherData (F : Type) where
  main : OpenWeather.MainSection F
  wind : OpenWeather.WindSection F
  weather : List OpenWeather.WeatherSection

/-- The errors of `OpenWeather::get_weather`, one constructor per
construction site. -/
inductive OpenWeather.Error (RErr : Type) where
  | unsupportedDate
  | coordsRequest (cause : RErr)
  | locationNotFound (location : String)
  | weatherRequest (cause : RErr)

/-- The weather-condition-code match of `OpenWeather::get_weather`
(openweather.rs lines 168-175). -/
def OpenWeather.weather_kind_of_code (id : Nat) : WeatherKind :=
  if (200 ≤ id ∧ id ≤ 299) ∨ (300 ≤ id ∧ id ≤ 399) ∨ (500 ≤ id ∧ id ≤ 599) then .rain
  else if 600 ≤ id ∧ id ≤ 699 then .snow
  else if id = 800 then .clear
  else if 801 ≤ id ∧ id ≤ 809 then .clouds
  else if 700 ≤ id ∧ id ≤ 799 then .fog
  else .unknown

/-- `OpenWeather::get_weather` (openweather.rs lines 129-188): reject a
supplied date before building any URL; otherwise geocode the location
(first result, else location-not-found), then fetch and map the weather.
Returns the result and the list of URLs requested. -/
def OpenWeather.get_weather {F RErr : Type} (apikey location : String)
    (date : Option Date) (format_coord : F → String)
    (get_coords : String → Except RErr (List (OpenWeather.Coords F)))
    (get_data : String → Except RErr (OpenWeather.WeatherData F)) :
    Except (OpenWeather.Error RErr) (WeatherInfo F) × List String :=
  if date.isSome then (.error .unsupportedDate, [])
  else
    let location_url := "https://api.openweathermap.org/geo/1.0/direct?q=" ++ location
      ++ "&limit=1&appid=" ++ apikey
    let data_url := "https://api.openweathermap.org/data/2.5/weather?appid=" ++ apikey
      ++ "&units=metric"
    match get_coords location_url with
    | .error e => (.error (.coordsRequest e), [location_url])
    | .ok locs =>
      match locs.head? with
      | none => (.error (.locationNotFound location), [location_url])
      | some c =>
        let data_url2 := data_url ++ "&lat=" ++ format_coord c.lat
          ++ "&lon=" ++ format_coord c.lon
        match get_data data_url2 with
        | .error e => (.error (.weatherRequest e), [location_url, data_url2])
        | .ok resp =>
          let weather := match resp.weather.head? with
            | some w => OpenWeather.weather_kind_of_code w.id
            | none => WeatherKind.unknown
          (.ok ⟨weather, resp.main.temp, resp.wind.speed, resp.main.humidity⟩,
            [location_url, data_url2])

/-- `PrecipitationType` (accuweather.rs). -/
inductive PrecipitationType where
  | rain
  | snow
  | ice
  | mixed

/-- `Value` (accuweather.rs): a measured value. -/
structure AccuWeather.Value (F : Type) where
  value : F

/-- `ValueEntry` (accuweather.rs): metric variant of a measured value. -/
structure AccuWeather.ValueEntry (F : Type) where
  metric : AccuWeather.Value F

/-- `Wind` (accuweather.rs). -/
structure AccuWeather.Wind (F : Type) where
  speed : AccuWeather.ValueEntry F

/-- `Condition` (accuweather.rs): one current-conditions entry. -/
structure AccuWeather.Condition (F : Type) where
  temperature : AccuWeather.ValueEntry F
  relative_humidity : F
  wind : AccuWeather.Wind F
  cloud_cover : F
  precipitation_type : Option PrecipitationType

/-- `Location` (accuweather.rs): one location-search result. -/
structure AccuWeather.Location where
  key : String

/-- The errors of `AccuWeather::get_weather`, one constructor per
construction site. -/
inductive AccuWeather.Error (RErr : Type) where
  | unsupportedDate
  | locationRequest (cause : RErr)
  | locationNotFound (location : String)
  | forecastRequest (cause : RErr)
  | noConditions

/-- `AccuWeather::get_weather` (accuweather.rs lines 135-206): reject a
supplied date before building any URL; otherwise search the location key
(first result, else location-not-found), fetch current conditions (first
entry, else no-conditions), convert wind speed from km/h (the `kmh_to_ms`
oracle models `* KM_H_M_S`) and map precipitation/cloud cover (the
`cloud_cover_gt_5` oracle models the `> 5.0` float comparison) to a kind.
Returns the result and the list of URLs requested. -/
def AccuWeather.get_weather {F RErr : Type} (apikey location : String)
    (date : Option Date) (kmh_to_ms : F → F) (cloud_cover_gt_5 : F → Bool)
    (get_locations : String → Except RErr (List AccuWeather.Location))
    (get_conditions : String → Except RErr (List (AccuWeather.Condition F))) :
    Except (AccuWeather.Error RErr) (WeatherInfo F) × List String :=
  if date.isSome then (.error .unsupportedDate, [])
  else
    let location_url := "https://dataservice.accuweather.com/locations/v1/cities/search?apikey="
      ++ apikey ++ "&q=" ++ location
    let data_url_head := "http://dataservice.accuweather.com/currentconditions/v1/"
    let data_url_tail := "?apikey=" ++ apikey ++ "&details=true"
    match get_locations location_url with
    | .error e => (.error (.locationRequest e), [location_url])
    | .ok locations =>
      match locations.head? with
      | none => (.error (.locationNotFound location), [location_url])
      | some loc =>
        let data_url := data_url_head ++ loc.key ++ data_url_tail
        match get_conditions data_url with
        | .error e => (.error (.forecastRequest e), [location_url, data_url])
        | .ok data =>
          match data.head? with
          | none => (.error .noConditions, [location_url, data_url])
          | some condition =>
            let temperature := condition.temperature.metric.value
            let wind_speed := kmh_to_ms condition.wind.speed.metric.value
            let humidity := condition.relative_humidity
            let weather := match condition.precipitation_type with
              | some PrecipitationType.snow => WeatherKind.snow
              | some PrecipitationType.ice => WeatherKind.snow
              | some PrecipitationType.mixed => WeatherKind.snow
              | some PrecipitationType.rain => WeatherKind.rain
              | none =>
                if cloud_cover_gt_5 condition.cloud_cover
                  then WeatherKind.clouds else WeatherKind.clear
            (.ok ⟨weather, temperature, wind_speed, humidity⟩,
              [location_url, data_url])

/-- C3: for both date-incapable providers (OpenWeather and AccuWeather),
any supplied date makes `get_weather` fail with the unsupported-date error
while issuing no network request whatsoever — the request log is empty, so
neither the geocoding GET nor the weather GET happens. -/
theorem c3_supplied_date_rejected_without_requests {F RErr : Type}
    (apikey location : String) (d : Date) (format_coord : F → String)
    (get_coords : String → Except RErr (List (OpenWeather.Coords F)))
    (get_data : String → Except RErr (OpenWeather.WeatherData F))
    (kmh_to_ms : F → F) (cloud_cover_gt_5 : F → Bool)
    (get_locations : String → Except RErr (List AccuWeather.Location))
    (get_conditions : String → Except RErr (List (AccuWeather.Condition F))) :
    OpenWeather.get_weather apikey location (some d) format_coord get_coords get_data
      = (.error .unsupportedDate, [])
    ∧ AccuWeather.get_weather apikey location (some d) kmh_to_ms cloud_cover_gt_5
        get_locations get_conditions
      = (.error .unsupportedDate, []) :=
  ⟨rfl, rfl⟩
